import Mathlib

/-!
Shallow embedding of src/tls.c: the TLS ClientHello SNI parser
(`parse_tls_header`, `parse_extensions`, `parse_server_name_extension`) and
the record-splitting mutator (`modify_tls_header`).

Buffers are lists of bytes (`List Nat`).  A C read `data[i]` is modelled by
`byteAt`, which yields `none` when the index is at or beyond the buffer
length; every `none` is propagated as the embedding-only outcome
`ParseErr.oob`, so "the parser never reads out of bounds" is the theorem
"the parser never returns `ParseErr.oob`".

The two C `while` loops advance their cursor by a dynamic amount, so they
are encoded with an explicit fuel argument (structural recursion).  Fuel
exhaustion yields the embedding-only outcome `ParseErr.outOfFuel`; the
wrappers supply `length + 1` fuel, which is proven sufficient
(`parse_tls_header_no_outOfFuel`).
-/

/-- Outcomes of `parse_tls_header` (src/tls.c lines 90-97), plus the two
embedding-only constructors described in the module comment. -/
inductive ParseErr where
  /-- C return value -1: incomplete request. -/
  | incomplete
  /-- C return value -2: no hostname in this request. -/
  | noHostname
  /-- C return value -3: invalid hostname pointer. -/
  | invalidPointer
  /-- C return value -4: malloc failure (unreachable here: allocation is total). -/
  | mallocFail
  /-- C return value -5: invalid TLS client hello. -/
  | malformed
  /-- Embedding-only: an out-of-range buffer read happened. -/
  | oob
  /-- Embedding-only: the fuel of the loop encoding ran out. -/
  | outOfFuel
deriving DecidableEq, Repr

/-- Result of a parse: on success the C code returns the hostname length and
fills the `*hostname` and `*modify_pos` output parameters; `ok` carries all
three.  `err` carries the negative return codes. -/
inductive ParseResult where
  | ok (hostname : List Nat) (retLen : Nat) (modifyPos : Nat)
  | err (e : ParseErr)
deriving DecidableEq, Repr

/-- Bounds-instrumented model of the C read `data[i]`. -/
def byteAt (data : List Nat) (i : Nat) : Option Nat :=
  if i < data.length then some (data.getD i 0) else none

/-- Bytes written by `strncpy(dst, src, n)` into `dst`: copying stops at the
first 0 byte of `src`, the remaining bytes are filled with 0.  (In tls.c the
source always has at least `n` readable bytes, so the `[]` case with positive
`n` is unreachable.) -/
def strncpyBytes (src : List Nat) : Nat → List Nat
  | 0 => []
  | n+1 =>
    match src with
    | [] => List.replicate (n+1) 0
    | b :: rest => if b = 0 then List.replicate (n+1) 0 else b :: strncpyBytes rest n

/-- Loop of `parse_server_name_extension` (src/tls.c lines 242-272).  `s` is
the extension body passed to the C function, `old_pos` the saved
`*modify_pos`, the final argument the cursor `pos`.  On finding a
`host_name` (type 0) entry it returns the name length, the copied
null-terminated hostname and `pos + 3 + old_pos`. -/
def psneLoopF (s : List Nat) (old_pos : Nat) : Nat → Nat → ParseResult
  | 0, _ => ParseResult.err ParseErr.outOfFuel
  | fuel+1, pos =>
    if pos + 3 < s.length then
      match byteAt s (pos+1), byteAt s (pos+2) with
      | some hi, some lo =>
        if pos + 3 + (hi * 256 + lo) > s.length then ParseResult.err ParseErr.malformed
        else
          match byteAt s pos with
          | some 0 =>
              ParseResult.ok
                (strncpyBytes ((s.drop (pos+3)).take (hi * 256 + lo)) (hi * 256 + lo) ++ [0])
                (hi * 256 + lo) (pos + 3 + old_pos)
          | some _ => psneLoopF s old_pos fuel (pos + 3 + (hi * 256 + lo))
          | none => ParseResult.err ParseErr.oob
      | none, _ => ParseResult.err ParseErr.oob
      | _, none => ParseResult.err ParseErr.oob
    else if pos ≠ s.length then ParseResult.err ParseErr.malformed
    else ParseResult.err ParseErr.noHostname

/-- `parse_server_name_extension` (src/tls.c lines 235-273): the loop starts
at `pos = 2` (skipping the server-name-list length). -/
def parse_server_name_extension (s : List Nat) (old_pos : Nat) : ParseResult :=
  psneLoopF s old_pos (s.length + 1) 2

/-- Loop of `parse_extensions` (src/tls.c lines 212-227): scan 4-byte
extension headers; on the SNI type tag (0x0000) check the declared body
length and delegate to `parse_server_name_extension` with
`old_pos := pos + 4 + old_pos`. -/
def peLoopF (s : List Nat) (old_pos : Nat) : Nat → Nat → ParseResult
  | 0, _ => ParseResult.err ParseErr.outOfFuel
  | fuel+1, pos =>
    if pos + 4 ≤ s.length then
      match byteAt s (pos+2), byteAt s (pos+3) with
      | some hi, some lo =>
        match byteAt s pos, byteAt s (pos+1) with
        | some 0, some 0 =>
          if pos + 4 + (hi * 256 + lo) > s.length then ParseResult.err ParseErr.malformed
          else
            parse_server_name_extension ((s.drop (pos+4)).take (hi * 256 + lo))
              (pos + 4 + old_pos)
        | some _, some _ => peLoopF s old_pos fuel (pos + 4 + (hi * 256 + lo))
        | none, _ => ParseResult.err ParseErr.oob
        | _, none => ParseResult.err ParseErr.oob
      | none, _ => ParseResult.err ParseErr.oob
      | _, none => ParseResult.err ParseErr.oob
    else if pos ≠ s.length then ParseResult.err ParseErr.malformed
    else ParseResult.err ParseErr.noHostname

/-- `parse_extensions` (src/tls.c lines 205-233). -/
def parse_extensions (s : List Nat) (old_pos : Nat) : ParseResult :=
  peLoopF s old_pos (s.length + 1) 0

/-- Extensions step of `parse_tls_header` (src/tls.c lines 188-202): `pos3` is
the cursor after the compression-methods list.  SSLv3.0 without extension
bytes is "no hostname"; otherwise read the 2-byte extensions length, check it
fits, and delegate the sub-slice with baseline offset `pos3 + 2`. -/
def parse_tls_header_exts (data : List Nat) (data_len vmaj vmin pos3 : Nat) : ParseResult :=
  if pos3 = data_len ∧ vmaj = 3 ∧ vmin = 0 then ParseResult.err ParseErr.noHostname
  else if pos3 + 2 > data_len then ParseResult.err ParseErr.malformed
  else
    match byteAt data pos3, byteAt data (pos3+1) with
    | some extHi, some extLo =>
      if pos3 + 2 + (extHi * 256 + extLo) > data_len then ParseResult.err ParseErr.malformed
      else
        parse_extensions ((data.drop (pos3 + 2)).take (extHi * 256 + extLo)) (pos3 + 2)
    | none, _ => ParseResult.err ParseErr.oob
    | _, none => ParseResult.err ParseErr.oob

/-- Compression-methods step of `parse_tls_header` (src/tls.c lines 183-186):
`pos2` is the cursor after the cipher-suites list; skip `1 + data[pos2]`. -/
def parse_tls_header_comp (data : List Nat) (data_len vmaj vmin pos2 : Nat) : ParseResult :=
  if pos2 + 1 > data_len then ParseResult.err ParseErr.malformed
  else
    match byteAt data pos2 with
    | some cmLen => parse_tls_header_exts data data_len vmaj vmin (pos2 + 1 + cmLen)
    | none => ParseResult.err ParseErr.oob

/-- Cipher-suites step of `parse_tls_header` (src/tls.c lines 177-180):
`pos1` is the cursor after the session id; skip `2 +` the 16-bit length. -/
def parse_tls_header_cs (data : List Nat) (data_len vmaj vmin pos1 : Nat) : ParseResult :=
  if pos1 + 2 > data_len then ParseResult.err ParseErr.malformed
  else
    match byteAt data pos1, byteAt data (pos1+1) with
    | some csHi, some csLo =>
        parse_tls_header_comp data data_len vmaj vmin (pos1 + 2 + (csHi * 256 + csLo))
    | none, _ => ParseResult.err ParseErr.oob
    | _, none => ParseResult.err ParseErr.oob

/-- Session-id step of `parse_tls_header` (src/tls.c lines 171-174): the
cursor is `43 = 5 + 38` after the fixed handshake fields; skip
`1 + data[43]`. -/
def parse_tls_header_sid (data : List Nat) (data_len vmaj vmin : Nat) : ParseResult :=
  if 43 + 1 > data_len then ParseResult.err ParseErr.malformed
  else
    match byteAt data 43 with
    | some sidLen => parse_tls_header_cs data data_len vmaj vmin (43 + 1 + sidLen)
    | none => ParseResult.err ParseErr.oob

/-- Handshake-type step of `parse_tls_header` (src/tls.c lines 149-168):
check `data[5] = 1` (ClientHello) and skip the 38 fixed bytes. -/
def parse_tls_header_hs (data : List Nat) (data_len vmaj vmin : Nat) : ParseResult :=
  if 5 + 1 > data_len then ParseResult.err ParseErr.malformed
  else
    match byteAt data 5 with
    | some ht =>
      if ht ≠ 1 then ParseResult.err ParseErr.malformed
      else parse_tls_header_sid data data_len vmaj vmin
    | none => ParseResult.err ParseErr.oob

/-- `parse_tls_header` (src/tls.c lines 99-203).  `hostnameNull` models
`hostname == NULL`.  The record-header phase: minimum length 5, the SSLv2
ClientHello pattern, the handshake content type 0x16, the record version
major byte, then the declared record length `data[3]*256 + data[4] + 5` which
clamps the working length (`min`); a buffer shorter than the declared total
is incomplete.  `data[2]` is read once and reused as the version minor, as in
the C code. -/
def parse_tls_header (hostnameNull : Bool) (data : List Nat) : ParseResult :=
  if hostnameNull then ParseResult.err ParseErr.invalidPointer
  else if data.length < 5 then ParseResult.err ParseErr.incomplete
  else
    match byteAt data 0, byteAt data 2 with
    | some b0, some b2 =>
      if b0 &&& 128 ≠ 0 ∧ b2 = 1 then ParseResult.err ParseErr.noHostname
      else if b0 ≠ 22 then ParseResult.err ParseErr.malformed
      else
        match byteAt data 1 with
        | some vmaj =>
          if vmaj < 3 then ParseResult.err ParseErr.noHostname
          else
            match byteAt data 3, byteAt data 4 with
            | some b3, some b4 =>
              if min data.length (b3 * 256 + b4 + 5) < b3 * 256 + b4 + 5 then
                ParseResult.err ParseErr.incomplete
              else
                parse_tls_header_hs data (min data.length (b3 * 256 + b4 + 5)) vmaj b2
            | none, _ => ParseResult.err ParseErr.oob
            | _, none => ParseResult.err ParseErr.oob
        | none => ParseResult.err ParseErr.oob
    | none, _ => ParseResult.err ParseErr.oob
    | _, none => ParseResult.err ParseErr.oob

/-- Write `src` into `l` starting at index `i` (model of `memcpy`/`memmove`
destinations and of 16-bit stores; the source bytes are materialised by the
caller, which is what makes `memmove`'s overlap handling correct here). -/
def storeBytes (l : List Nat) (i : Nat) (src : List Nat) : List Nat :=
  l.take i ++ src ++ l.drop (i + src.length)

/-- Big-endian 16-bit read at index `i`, as in `(data[i] << 8) + data[i+1]`. -/
def readU16 (l : List Nat) (i : Nat) : Nat :=
  l.getD i 0 * 256 + l.getD (i+1) 0

/-- Declared TLS record length: the big-endian 16-bit field at offset 3. -/
def declaredLen (l : List Nat) : Nat := readU16 l 3

/-- `modify_tls_header` (src/tls.c lines 73-84).  `data` is the caller's
buffer (its length plays `data_len`, which per the spec includes 5 reserved
trailing bytes).  The split point is `modify_pos + 1`: shift the tail up by
5, duplicate the original 5-byte record header at the split, then rewrite
both big-endian 16-bit length fields; `part2_len` is a `size_t` difference
truncated to 16 bits by `htons`, modelled exactly by the `Int` remainder. -/
def modify_tls_header (data : List Nat) (modify_pos : Nat) : List Nat :=
  let sni_split_pos := modify_pos + 1
  let d1 := storeBytes data (5 + sni_split_pos)
      ((data.drop sni_split_pos).take (data.length - 5 - sni_split_pos))
  let d2 := storeBytes d1 sni_split_pos (d1.take 5)
  let part1_len := sni_split_pos - 5
  let record_length := readU16 d2 3
  let part2_len := (((record_length : Int) - (part1_len : Int)) % 65536).toNat
  let d3 := storeBytes d2 3 [part1_len / 256 % 256, part1_len % 256]
  storeBytes d3 (sni_split_pos + 3) [part2_len / 256 % 256, part2_len % 256]

/-- Concrete well-formed TLS 1.2 ClientHello whose SNI extension carries
host_name "example.com" (record header; handshake type 1, length, version,
32-byte random; empty session id; one cipher suite; one compression method;
extensions block holding a single SNI extension). -/
def exampleClientHello : List Nat :=
  [22, 3, 3, 0, 67,
   1, 0, 0, 63,
   3, 3,
   0,0,0,0,0,0,0,0, 0,0,0,0,0,0,0,0, 0,0,0,0,0,0,0,0, 0,0,0,0,0,0,0,0,
   0,
   0, 2, 19, 1,
   1, 0,
   0, 20,
   0, 0, 0, 16,
   0, 14,
   0, 0, 11,
   101, 120, 97, 109, 112, 108, 101, 46, 99, 111, 109]

/-- Same shape as `exampleClientHello` but the 3-byte host_name is
`[65, 0, 66]`, i.e. it contains an interior null byte. -/
def nullByteClientHello : List Nat :=
  [22, 3, 3, 0, 59,
   1, 0, 0, 55,
   3, 3,
   0,0,0,0,0,0,0,0, 0,0,0,0,0,0,0,0, 0,0,0,0,0,0,0,0, 0,0,0,0,0,0,0,0,
   0,
   0, 2, 19, 1,
   1, 0,
   0, 12,
   0, 0, 0, 8,
   0, 6,
   0, 0, 3,
   65, 0, 66]

/-- Handshake body of a minimal ClientHello: type 1, then 3 unchecked bytes
of handshake length and 2 of version and 32 of random (37 bytes, supplied as
`rand37`), the session id, the cipher-suite list, the compression-method
list, and the extension bytes. -/
def mkClientHelloBody (rand37 sid cs cm ext : List Nat) : List Nat :=
  [1] ++ rand37 ++ [sid.length] ++ sid ++ [cs.length / 256, cs.length % 256] ++ cs
    ++ [cm.length] ++ cm ++ ext

/-- TLS record of the given version around `mkClientHelloBody`. -/
def mkClientHello (vmaj vmin : Nat) (rand37 sid cs cm ext : List Nat) : List Nat :=
  [22, vmaj, vmin, (mkClientHelloBody rand37 sid cs cm ext).length / 256,
   (mkClientHelloBody rand37 sid cs cm ext).length % 256]
    ++ mkClientHelloBody rand37 sid cs cm ext

/-! Toolkit lemmas about the byte-level primitives. -/

theorem byteAt_eq_some {data : List Nat} {i : Nat} (h : i < data.length) :
    byteAt data i = some (data.getD i 0) := by
  simp [byteAt, h]

theorem byteAt_some {data : List Nat} {i b : Nat} (h : byteAt data i = some b) :
    i < data.length ∧ data.getD i 0 = b := by
  by_cases hi : i < data.length
  · refine ⟨hi, ?_⟩
    simpa [byteAt, hi] using h
  · simp [byteAt, hi] at h

theorem getD_drop (l : List Nat) (a n : Nat) : (l.drop a).getD n 0 = l.getD (a + n) 0 := by
  simp [List.getD_eq_getElem?_getD, List.getElem?_drop]

theorem getD_take {l : List Nat} {m n : Nat} (h : n < m) :
    (l.take m).getD n 0 = l.getD n 0 := by
  simp [List.getD_eq_getElem?_getD, List.getElem?_take, h]

theorem getD_slice {l : List Nat} {a b c : Nat} (h : c < b) :
    ((l.drop a).take b).getD c 0 = l.getD (a + c) 0 := by
  rw [getD_take h, getD_drop]

theorem length_slice {l : List Nat} {a b : Nat} (h : a + b ≤ l.length) :
    ((l.drop a).take b).length = b := by
  simp only [List.length_take, List.length_drop]
  omega

theorem slice_comp {l : List Nat} {a b c d : Nat} (h : c + d ≤ b) :
    (((l.drop a).take b).drop c).take d = (l.drop (a + c)).take d := by
  rw [List.drop_take, List.drop_drop, List.take_take]
  have hd : d ⊓ (b - c) = d := by omega
  rw [hd]

theorem strncpyBytes_eq_self : ∀ (n : Nat) (src : List Nat), src.length = n →
    (∀ b ∈ src, b ≠ 0) → strncpyBytes src n = src
  | 0, src, h, _ => by
    cases src with
    | nil => rfl
    | cons b rest => simp at h
  | n+1, src, h, hnz => by
    cases src with
    | nil => simp at h
    | cons b rest =>
      have hb : b ≠ 0 := hnz b (by simp)
      simp only [strncpyBytes, if_neg hb]
      rw [strncpyBytes_eq_self n rest (by simpa using h)
        (fun x hx => hnz x (by simp [hx]))]

/-! Characterisation of successful runs of the two scanning loops. -/

theorem psneLoopF_ok : ∀ (fuel : Nat) {s : List Nat} {old_pos pos : Nat}
    {h : List Nat} {L M : Nat},
    psneLoopF s old_pos fuel pos = ParseResult.ok h L M →
    ∃ q, M = old_pos + q + 3 ∧ pos ≤ q ∧ q + 3 < s.length ∧ q + 3 + L ≤ s.length ∧
      L = s.getD (q+1) 0 * 256 + s.getD (q+2) 0 ∧
      h = strncpyBytes ((s.drop (q+3)).take L) L ++ [0]
  | 0, s, old_pos, pos, h, L, M => by
    intro hp
    simp [psneLoopF] at hp
  | fuel+1, s, old_pos, pos, h, L, M => by
    intro hp
    simp only [psneLoopF] at hp
    split at hp
    case isTrue h3 =>
      split at hp
      case h_1 hi lo hhi hlo =>
        obtain ⟨hi1, hi2⟩ := byteAt_some hhi
        obtain ⟨lo1, lo2⟩ := byteAt_some hlo
        split at hp
        case isTrue hlen => cases hp
        case isFalse hlen =>
          split at hp
          case h_1 hty =>
            obtain ⟨ty1, ty2⟩ := byteAt_some hty
            cases hp
            exact ⟨pos, by omega, le_refl pos, h3, by omega, by rw [hi2, lo2], rfl⟩
          case h_2 k hty =>
            obtain ⟨q, hq1, hq2, hq3, hq4, hq5, hq6⟩ := psneLoopF_ok fuel hp
            exact ⟨q, hq1, by omega, hq3, hq4, hq5, hq6⟩
          case h_3 hty => cases hp
      case h_2 hhi => cases hp
      case h_3 hhi hlo => cases hp
    case isFalse h3 =>
      split at hp <;> cases hp

theorem peLoopF_ok : ∀ (fuel : Nat) {s : List Nat} {old_pos pos : Nat}
    {h : List Nat} {L M : Nat},
    peLoopF s old_pos fuel pos = ParseResult.ok h L M →
    ∃ r, M = old_pos + r ∧ pos + 9 ≤ r ∧ r + L ≤ s.length ∧ r < s.length ∧
      L = s.getD (r-2) 0 * 256 + s.getD (r-1) 0 ∧
      h = strncpyBytes ((s.drop r).take L) L ++ [0]
  | 0, s, old_pos, pos, h, L, M => by
    intro hp
    simp [peLoopF] at hp
  | fuel+1, s, old_pos, pos, h, L, M => by
    intro hp
    simp only [peLoopF] at hp
    split at hp
    case isTrue h4 =>
      split at hp
      case h_1 hi lo hhi hlo =>
        obtain ⟨hi1, hi2⟩ := byteAt_some hhi
        obtain ⟨lo1, lo2⟩ := byteAt_some hlo
        split at hp
        case h_1 ht0 ht1 =>
          split at hp
          case isTrue hlen => cases hp
          case isFalse hlen =>
            unfold parse_server_name_extension at hp
            obtain ⟨q, hq1, hq2, hq3, hq4, hq5, hq6⟩ := psneLoopF_ok _ hp
            have hslen : ((s.drop (pos+4)).take (hi * 256 + lo)).length = hi * 256 + lo :=
              length_slice (by omega)
            have hq3' : q + 3 < hi * 256 + lo := by rw [hslen] at hq3; exact hq3
            have hq4' : q + 3 + L ≤ hi * 256 + lo := by rw [hslen] at hq4; exact hq4
            refine ⟨pos + 4 + q + 3, by omega, by omega, by omega, by omega, ?_, ?_⟩
            · rw [hq5, getD_slice (by omega), getD_slice (by omega)]
              have e1 : pos + 4 + (q + 1) = pos + 4 + q + 3 - 2 := by omega
              have e2 : pos + 4 + (q + 2) = pos + 4 + q + 3 - 1 := by omega
              rw [e1, e2]
            · rw [hq6, slice_comp (by omega)]
              have e3 : pos + 4 + (q + 3) = pos + 4 + q + 3 := by omega
              rw [e3]
        case h_2 =>
          obtain ⟨r, hr1, hr2, hr3, hr4, hr5, hr6⟩ := peLoopF_ok fuel hp
          exact ⟨r, hr1, by omega, hr3, hr4, hr5, hr6⟩
        case h_3 => cases hp
        case h_4 => cases hp
      case h_2 => cases hp
      case h_3 => cases hp
    case isFalse h4 =>
      split at hp <;> cases hp

/-! Characterisation of a successful `parse_tls_header`, stage by stage. -/

theorem parse_tls_header_exts_ok {data : List Nat} {data_len vmaj vmin pos3 : Nat}
    {h : List Nat} {L M : Nat} (hdl : data_len ≤ data.length)
    (hp : parse_tls_header_exts data data_len vmaj vmin pos3 = ParseResult.ok h L M) :
    pos3 + 11 ≤ M ∧ M + L ≤ data_len ∧ M < data_len ∧
      L = data.getD (M-2) 0 * 256 + data.getD (M-1) 0 ∧
      h = strncpyBytes ((data.drop M).take L) L ++ [0] := by
  unfold parse_tls_header_exts at hp
  split at hp
  case isTrue => cases hp
  case isFalse hA =>
    split at hp
    case isTrue => cases hp
    case isFalse hB =>
      split at hp
      case h_1 extHi extLo hHi hLo =>
        obtain ⟨e1, e2⟩ := byteAt_some hHi
        obtain ⟨e3, e4⟩ := byteAt_some hLo
        split at hp
        case isTrue => cases hp
        case isFalse hC =>
          unfold parse_extensions at hp
          obtain ⟨r, hr1, hr2, hr3, hr4, hr5, hr6⟩ := peLoopF_ok _ hp
          have hsl : ((data.drop (pos3+2)).take (extHi * 256 + extLo)).length
              = extHi * 256 + extLo := length_slice (by omega)
          have hr3' : r + L ≤ extHi * 256 + extLo := by rw [hsl] at hr3; exact hr3
          have hr4' : r < extHi * 256 + extLo := by rw [hsl] at hr4; exact hr4
          refine ⟨by omega, by omega, by omega, ?_, ?_⟩
          · rw [hr5, getD_slice (by omega), getD_slice (by omega)]
            have i1 : pos3 + 2 + (r - 2) = M - 2 := by omega
            have i2 : pos3 + 2 + (r - 1) = M - 1 := by omega
            rw [i1, i2]
          · rw [hr6, slice_comp (by omega)]
            have i3 : pos3 + 2 + r = M := by omega
            rw [i3]
      case h_2 => cases hp
      case h_3 => cases hp

theorem parse_tls_header_comp_ok {data : List Nat} {data_len vmaj vmin pos2 : Nat}
    {h : List Nat} {L M : Nat} (hdl : data_len ≤ data.length)
    (hp : parse_tls_header_comp data data_len vmaj vmin pos2 = ParseResult.ok h L M) :
    pos2 + 12 ≤ M ∧ M + L ≤ data_len ∧ M < data_len ∧
      L = data.getD (M-2) 0 * 256 + data.getD (M-1) 0 ∧
      h = strncpyBytes ((data.drop M).take L) L ++ [0] := by
  unfold parse_tls_header_comp at hp
  split at hp
  case isTrue => cases hp
  case isFalse hB =>
    split at hp
    case h_1 cmLen hcm =>
      obtain ⟨c1, c2, c3, c4, c5⟩ := parse_tls_header_exts_ok hdl hp
      exact ⟨by omega, c2, c3, c4, c5⟩
    case h_2 => cases hp

theorem parse_tls_header_cs_ok {data : List Nat} {data_len vmaj vmin pos1 : Nat}
    {h : List Nat} {L M : Nat} (hdl : data_len ≤ data.length)
    (hp : parse_tls_header_cs data data_len vmaj vmin pos1 = ParseResult.ok h L M) :
    pos1 + 14 ≤ M ∧ M + L ≤ data_len ∧ M < data_len ∧
      L = data.getD (M-2) 0 * 256 + data.getD (M-1) 0 ∧
      h = strncpyBytes ((data.drop M).take L) L ++ [0] := by
  unfold parse_tls_header_cs at hp
  split at hp
  case isTrue => cases hp
  case isFalse hB =>
    split at hp
    case h_1 csHi csLo hcs1 hcs2 =>
      obtain ⟨c1, c2, c3, c4, c5⟩ := parse_tls_header_comp_ok hdl hp
      exact ⟨by omega, c2, c3, c4, c5⟩
    case h_2 => cases hp
    case h_3 => cases hp

theorem parse_tls_header_sid_ok {data : List Nat} {data_len vmaj vmin : Nat}
    {h : List Nat} {L M : Nat} (hdl : data_len ≤ data.length)
    (hp : parse_tls_header_sid data data_len vmaj vmin = ParseResult.ok h L M) :
    58 ≤ M ∧ M + L ≤ data_len ∧ M < data_len ∧
      L = data.getD (M-2) 0 * 256 + data.getD (M-1) 0 ∧
      h = strncpyBytes ((data.drop M).take L) L ++ [0] := by
  unfold parse_tls_header_sid at hp
  split at hp
  case isTrue => cases hp
  case isFalse hB =>
    split at hp
    case h_1 sidLen hsid =>
      obtain ⟨c1, c2, c3, c4, c5⟩ := parse_tls_header_cs_ok hdl hp
      exact ⟨by omega, c2, c3, c4, c5⟩
    case h_2 => cases hp

theorem parse_tls_header_hs_ok {data : List Nat} {data_len vmaj vmin : Nat}
    {h : List Nat} {L M : Nat} (hdl : data_len ≤ data.length)
    (hp : parse_tls_header_hs data data_len vmaj vmin = ParseResult.ok h L M) :
    58 ≤ M ∧ M + L ≤ data_len ∧ M < data_len ∧
      L = data.getD (M-2) 0 * 256 + data.getD (M-1) 0 ∧
      h = strncpyBytes ((data.drop M).take L) L ++ [0] := by
  unfold parse_tls_header_hs at hp
  split at hp
  case isTrue => cases hp
  case isFalse hB =>
    split at hp
    case h_1 ht hht =>
      split at hp
      case isTrue => cases hp
      case isFalse => exact parse_tls_header_sid_ok hdl hp
    case h_2 => cases hp

/-- Master characterisation of a successful parse: the whole declared record
is present, the modify position lies strictly inside the record past all the
fixed fields, the hostname bytes `[M, M+L)` lie inside the record, the
returned length is the entry's declared 16-bit name length (at `M-2`), and
the hostname is the `strncpy` image of the name bytes plus a null. -/
theorem parse_tls_header_ok {data : List Nat} {h : List Nat} {L M : Nat}
    (hp : parse_tls_header false data = ParseResult.ok h L M) :
    5 + declaredLen data ≤ data.length ∧
    58 ≤ M ∧ M + L ≤ 5 + declaredLen data ∧ M < 5 + declaredLen data ∧
    L = data.getD (M-2) 0 * 256 + data.getD (M-1) 0 ∧
    h = strncpyBytes ((data.drop M).take L) L ++ [0] := by
  unfold parse_tls_header at hp
  rw [if_neg (by simp)] at hp
  split at hp
  case isTrue => cases hp
  case isFalse h5 =>
    split at hp
    case h_1 b0 b2 hb0 hb2 =>
      obtain ⟨k0, v0⟩ := byteAt_some hb0
      obtain ⟨k2, v2⟩ := byteAt_some hb2
      split at hp
      case isTrue => cases hp
      case isFalse hssl2 =>
        split at hp
        case isTrue => cases hp
        case isFalse hct =>
          split at hp
          case h_1 vmaj hv =>
            obtain ⟨k1, v1⟩ := byteAt_some hv
            split at hp
            case isTrue => cases hp
            case isFalse hver =>
              split at hp
              case h_1 b3 b4 hb3 hb4 =>
                obtain ⟨k3, v3⟩ := byteAt_some hb3
                obtain ⟨k4, v4⟩ := byteAt_some hb4
                split at hp
                case isTrue => cases hp
                case isFalse hfull =>
                  have hdecl : declaredLen data = b3 * 256 + b4 := by
                    unfold declaredLen readU16
                    rw [v3, v4]
                  have hdl : min data.length (b3 * 256 + b4 + 5) ≤ data.length :=
                    Nat.min_le_left _ _
                  obtain ⟨c1, c2, c3, c4, c5⟩ := parse_tls_header_hs_ok hdl hp
                  refine ⟨by omega, c1, by omega, by omega, c4, c5⟩
              case h_2 => cases hp
              case h_3 => cases hp
          case h_2 => cases hp
    case h_2 => cases hp
    case h_3 => cases hp

/-! The out-of-range branches are unreachable: every read is guarded. -/

theorem psneLoopF_no_oob : ∀ (fuel : Nat) (s : List Nat) (old_pos pos : Nat),
    psneLoopF s old_pos fuel pos ≠ ParseResult.err ParseErr.oob
  | 0, s, old_pos, pos => by simp [psneLoopF]
  | fuel+1, s, old_pos, pos => by
    simp only [psneLoopF]
    split
    case isTrue h3 =>
      split
      case h_1 hi lo hhi hlo =>
        split
        case isTrue => simp
        case isFalse hlen =>
          split
          case h_1 => simp
          case h_2 => exact psneLoopF_no_oob fuel s old_pos _
          case h_3 hty =>
            rw [byteAt_eq_some (by omega)] at hty
            cases hty
      case h_2 hhi =>
        rw [byteAt_eq_some (by omega)] at hhi
        cases hhi
      case h_3 hhi hlo =>
        rw [byteAt_eq_some (by omega)] at hhi
        cases hhi
    case isFalse h3 =>
      split <;> simp

theorem parse_server_name_extension_no_oob (s : List Nat) (old_pos : Nat) :
    parse_server_name_extension s old_pos ≠ ParseResult.err ParseErr.oob :=
  psneLoopF_no_oob _ s old_pos 2

theorem peLoopF_no_oob : ∀ (fuel : Nat) (s : List Nat) (old_pos pos : Nat),
    peLoopF s old_pos fuel pos ≠ ParseResult.err ParseErr.oob
  | 0, s, old_pos, pos => by simp [peLoopF]
  | fuel+1, s, old_pos, pos => by
    simp only [peLoopF]
    split
    case isTrue h4 =>
      split
      case h_1 hi lo hhi hlo =>
        split
        case h_1 =>
          split
          case isTrue => simp
          case isFalse => exact parse_server_name_extension_no_oob _ _
        case h_2 => exact peLoopF_no_oob fuel s old_pos _
        case h_3 hty =>
          rw [byteAt_eq_some (by omega)] at hty
          cases hty
        case h_4 h1 hty =>
          rw [byteAt_eq_some (by omega)] at h1
          cases h1
      case h_2 hhi =>
        rw [byteAt_eq_some (by omega)] at hhi
        cases hhi
      case h_3 hhi hlo =>
        rw [byteAt_eq_some (by omega)] at hhi
        cases hhi
    case isFalse h4 =>
      split <;> simp

theorem parse_extensions_no_oob (s : List Nat) (old_pos : Nat) :
    parse_extensions s old_pos ≠ ParseResult.err ParseErr.oob :=
  peLoopF_no_oob _ s old_pos 0

theorem parse_tls_header_exts_no_oob {data : List Nat} {data_len vmaj vmin pos3 : Nat}
    (hdl : data_len ≤ data.length) :
    parse_tls_header_exts data data_len vmaj vmin pos3 ≠ ParseResult.err ParseErr.oob := by
  unfold parse_tls_header_exts
  split
  case isTrue => simp
  case isFalse hA =>
    split
    case isTrue => simp
    case isFalse hB =>
      split
      case h_1 => split
                  case isTrue => simp
                  case isFalse => exact parse_extensions_no_oob _ _
      case h_2 hhi =>
        rw [byteAt_eq_some (by omega)] at hhi
        cases hhi
      case h_3 hhi hlo =>
        rw [byteAt_eq_some (by omega)] at hhi
        cases hhi

theorem parse_tls_header_comp_no_oob {data : List Nat} {data_len vmaj vmin pos2 : Nat}
    (hdl : data_len ≤ data.length) :
    parse_tls_header_comp data data_len vmaj vmin pos2 ≠ ParseResult.err ParseErr.oob := by
  unfold parse_tls_header_comp
  split
  case isTrue => simp
  case isFalse hB =>
    split
    case h_1 => exact parse_tls_header_exts_no_oob hdl
    case h_2 hcm =>
      rw [byteAt_eq_some (by omega)] at hcm
      cases hcm

theorem parse_tls_header_cs_no_oob {data : List Nat} {data_len vmaj vmin pos1 : Nat}
    (hdl : data_len ≤ data.length) :
    parse_tls_header_cs data data_len vmaj vmin pos1 ≠ ParseResult.err ParseErr.oob := by
  unfold parse_tls_header_cs
  split
  case isTrue => simp
  case isFalse hB =>
    split
    case h_1 => exact parse_tls_header_comp_no_oob hdl
    case h_2 hhi =>
      rw [byteAt_eq_some (by omega)] at hhi
      cases hhi
    case h_3 hhi hlo =>
      rw [byteAt_eq_some (by omega)] at hhi
      cases hhi

theorem parse_tls_header_sid_no_oob {data : List Nat} {data_len vmaj vmin : Nat}
    (hdl : data_len ≤ data.length) :
    parse_tls_header_sid data data_len vmaj vmin ≠ ParseResult.err ParseErr.oob := by
  unfold parse_tls_header_sid
  split
  case isTrue => simp
  case isFalse hB =>
    split
    case h_1 => exact parse_tls_header_cs_no_oob hdl
    case h_2 hsid =>
      rw [byteAt_eq_some (by omega)] at hsid
      cases hsid

theorem parse_tls_header_hs_no_oob {data : List Nat} {data_len vmaj vmin : Nat}
    (hdl : data_len ≤ data.length) :
    parse_tls_header_hs data data_len vmaj vmin ≠ ParseResult.err ParseErr.oob := by
  unfold parse_tls_header_hs
  split
  case isTrue => simp
  case isFalse hB =>
    split
    case h_1 =>
      split
      case isTrue => simp
      case isFalse => exact parse_tls_header_sid_no_oob hdl
    case h_2 hht =>
      rw [byteAt_eq_some (by omega)] at hht
      cases hht

/-! The fuel supplied by the wrappers never runs out: the loop cursors grow
by at least 1 on every iteration. -/

theorem psneLoopF_no_outOfFuel : ∀ (fuel : Nat) (s : List Nat) (old_pos pos : Nat),
    s.length - pos < fuel →
    psneLoopF s old_pos fuel pos ≠ ParseResult.err ParseErr.outOfFuel
  | 0, s, old_pos, pos => by intro hf; omega
  | fuel+1, s, old_pos, pos => by
    intro hf
    simp only [psneLoopF]
    split
    case isTrue h3 =>
      split
      case h_1 hi lo hhi hlo =>
        split
        case isTrue => simp
        case isFalse hlen =>
          split
          case h_1 => simp
          case h_2 => exact psneLoopF_no_outOfFuel fuel s old_pos _ (by omega)
          case h_3 => simp
      case h_2 => simp
      case h_3 => simp
    case isFalse h3 =>
      split <;> simp

theorem parse_server_name_extension_no_outOfFuel (s : List Nat) (old_pos : Nat) :
    parse_server_name_extension s old_pos ≠ ParseResult.err ParseErr.outOfFuel :=
  psneLoopF_no_outOfFuel _ s old_pos 2 (by omega)

theorem peLoopF_no_outOfFuel : ∀ (fuel : Nat) (s : List Nat) (old_pos pos : Nat),
    s.length - pos < fuel →
    peLoopF s old_pos fuel pos ≠ ParseResult.err ParseErr.outOfFuel
  | 0, s, old_pos, pos => by intro hf; omega
  | fuel+1, s, old_pos, pos => by
    intro hf
    simp only [peLoopF]
    split
    case isTrue h4 =>
      split
      case h_1 hi lo hhi hlo =>
        split
        case h_1 =>
          split
          case isTrue => simp
          case isFalse => exact parse_server_name_extension_no_outOfFuel _ _
        case h_2 => exact peLoopF_no_outOfFuel fuel s old_pos _ (by omega)
        case h_3 => simp
        case h_4 => simp
      case h_2 => simp
      case h_3 => simp
    case isFalse h4 =>
      split <;> simp

theorem parse_extensions_no_outOfFuel (s : List Nat) (old_pos : Nat) :
    parse_extensions s old_pos ≠ ParseResult.err ParseErr.outOfFuel :=
  peLoopF_no_outOfFuel _ s old_pos 0 (by omega)

theorem parse_tls_header_exts_no_outOfFuel {data : List Nat} {data_len vmaj vmin pos3 : Nat} :
    parse_tls_header_exts data data_len vmaj vmin pos3
      ≠ ParseResult.err ParseErr.outOfFuel := by
  unfold parse_tls_header_exts
  split
  case isTrue => simp
  case isFalse =>
    split
    case isTrue => simp
    case isFalse =>
      split
      case h_1 => split
                  case isTrue => simp
                  case isFalse => exact parse_extensions_no_outOfFuel _ _
      case h_2 => simp
      case h_3 => simp

theorem parse_tls_header_comp_no_outOfFuel {data : List Nat} {data_len vmaj vmin pos2 : Nat} :
    parse_tls_header_comp data data_len vmaj vmin pos2
      ≠ ParseResult.err ParseErr.outOfFuel := by
  unfold parse_tls_header_comp
  split
  case isTrue => simp
  case isFalse =>
    split
    case h_1 => exact parse_tls_header_exts_no_outOfFuel
    case h_2 => simp

theorem parse_tls_header_cs_no_outOfFuel {data : List Nat} {data_len vmaj vmin pos1 : Nat} :
    parse_tls_header_cs data data_len vmaj vmin pos1
      ≠ ParseResult.err ParseErr.outOfFuel := by
  unfold parse_tls_header_cs
  split
  case isTrue => simp
  case isFalse =>
    split
    case h_1 => exact parse_tls_header_comp_no_outOfFuel
    case h_2 => simp
    case h_3 => simp

theorem parse_tls_header_sid_no_outOfFuel {data : List Nat} {data_len vmaj vmin : Nat} :
    parse_tls_header_sid data data_len vmaj vmin ≠ ParseResult.err ParseErr.outOfFuel := by
  unfold parse_tls_header_sid
  split
  case isTrue => simp
  case isFalse =>
    split
    case h_1 => exact parse_tls_header_cs_no_outOfFuel
    case h_2 => simp

theorem parse_tls_header_hs_no_outOfFuel {data : List Nat} {data_len vmaj vmin : Nat} :
    parse_tls_header_hs data data_len vmaj vmin ≠ ParseResult.err ParseErr.outOfFuel := by
  unfold parse_tls_header_hs
  split
  case isTrue => simp
  case isFalse =>
    split
    case h_1 =>
      split
      case isTrue => simp
      case isFalse => exact parse_tls_header_sid_no_outOfFuel
    case h_2 => simp

theorem parse_tls_header_no_outOfFuel (hostnameNull : Bool) (data : List Nat) :
    parse_tls_header hostnameNull data ≠ ParseResult.err ParseErr.outOfFuel := by
  unfold parse_tls_header
  split
  case isTrue => simp
  case isFalse =>
    split
    case isTrue => simp
    case isFalse h5 =>
      split
      case h_1 =>
        split
        case isTrue => simp
        case isFalse =>
          split
          case isTrue => simp
          case isFalse =>
            split
            case h_1 =>
              split
              case isTrue => simp
              case isFalse =>
                split
                case h_1 =>
                  split
                  case isTrue => simp
                  case isFalse => exact parse_tls_header_hs_no_outOfFuel
                case h_2 => simp
                case h_3 => simp
            case h_2 => simp
      case h_2 => simp
      case h_3 => simp

/-- Claim C1: for every input buffer (and whether or not a hostname output
slot was supplied), the parser never performs an out-of-range read: the
`ParseErr.oob` branches behind every `byteAt` are unreachable, because every
length-prefixed skip and read is preceded by a bounds check. -/
theorem parse_tls_header_never_oob (hostnameNull : Bool) (data : List Nat) :
    parse_tls_header hostnameNull data ≠ ParseResult.err ParseErr.oob := by
  unfold parse_tls_header
  split
  case isTrue => simp
  case isFalse =>
    split
    case isTrue => simp
    case isFalse h5 =>
      split
      case h_1 b0 b2 hb0 hb2 =>
        split
        case isTrue => simp
        case isFalse =>
          split
          case isTrue => simp
          case isFalse =>
            split
            case h_1 vmaj hv =>
              split
              case isTrue => simp
              case isFalse =>
                split
                case h_1 b3 b4 hb3 hb4 =>
                  split
                  case isTrue => simp
                  case isFalse =>
                    exact parse_tls_header_hs_no_oob (Nat.min_le_left _ _)
                case h_2 hn =>
                  rw [byteAt_eq_some (by omega)] at hn
                  cases hn
                case h_3 hn hm =>
                  rw [byteAt_eq_some (by omega)] at hn
                  cases hn
            case h_2 hn =>
              rw [byteAt_eq_some (by omega)] at hn
              cases hn
      case h_2 hn =>
        rw [byteAt_eq_some (by omega)] at hn
        cases hn
      case h_3 hn hm =>
        rw [byteAt_eq_some (by omega)] at hn
        cases hn

/-! Byte-level characterisation of `storeBytes` and `modify_tls_header`. -/

theorem storeBytes_length {l src : List Nat} {i : Nat} (hle : i + src.length ≤ l.length) :
    (storeBytes l i src).length = l.length := by
  simp only [storeBytes, List.length_append, List.length_take, List.length_drop]
  omega

theorem storeBytes_getElem? {l src : List Nat} {i : Nat} (hle : i + src.length ≤ l.length)
    (j : Nat) :
    (storeBytes l i src)[j]? =
      if i ≤ j ∧ j < i + src.length then src[j - i]? else l[j]? := by
  unfold storeBytes
  have hti : (l.take i).length = i := by
    simp only [List.length_take]
    omega
  by_cases hw : i ≤ j ∧ j < i + src.length
  · rw [if_pos hw]
    rw [List.getElem?_append_left (by simp only [List.length_append, hti]; omega)]
    rw [List.getElem?_append_right (by rw [hti]; omega)]
    rw [hti]
  · rw [if_neg hw]
    by_cases h1 : j < i
    · rw [List.getElem?_append_left (by simp only [List.length_append, hti]; omega)]
      rw [List.getElem?_append_left (by rw [hti]; omega)]
      rw [List.getElem?_take, if_pos h1]
    · rw [List.getElem?_append_right (by simp only [List.length_append, hti]; omega)]
      rw [List.getElem?_drop]
      congr 1
      simp only [List.length_append, hti]
      omega

theorem modify_tls_header_getElem? (buf : List Nat) (M : Nat) (h5 : 5 ≤ M)
    (hlen : M + 6 ≤ buf.length) (j : Nat) :
    (modify_tls_header buf M)[j]? =
      if j < 3 then buf[j]?
      else if j = 3 then some ((M + 1 - 5) / 256 % 256)
      else if j = 4 then some ((M + 1 - 5) % 256)
      else if j < M + 1 then buf[j]?
      else if j < M + 4 then buf[j - (M + 1)]?
      else if j = M + 4 then
        some (((((readU16 buf 3 : Int) - ((M + 1 - 5 : Nat) : Int)) % 65536).toNat) / 256 % 256)
      else if j = M + 5 then
        some (((((readU16 buf 3 : Int) - ((M + 1 - 5 : Nat) : Int)) % 65536).toNat) % 256)
      else if j < buf.length then buf[j - 5]?
      else none := by
  simp only [modify_tls_header]
  set s1 := (buf.drop (M+1)).take (buf.length - 5 - (M+1)) with hs1def
  have hs1len : s1.length = buf.length - 5 - (M+1) := length_slice (by omega)
  have hs1get : ∀ k, s1[k]? = if k < buf.length - 5 - (M+1) then buf[M+1+k]? else none := by
    intro k
    rw [hs1def, List.getElem?_take]
    split
    · rw [List.getElem?_drop]
    · rfl
  set d1 := storeBytes buf (5 + (M+1)) s1 with hd1def
  have hd1len : d1.length = buf.length := storeBytes_length (by rw [hs1len]; omega)
  have hd1get : ∀ j, d1[j]? = if M + 6 ≤ j ∧ j < buf.length then buf[j - 5]? else buf[j]? := by
    intro j
    rw [hd1def, storeBytes_getElem? (by rw [hs1len]; omega)]
    by_cases hw : 5 + (M+1) ≤ j ∧ j < 5 + (M+1) + s1.length
    · rw [if_pos hw, hs1get, if_pos (by omega), if_pos (by omega)]
      congr 1
      omega
    · rw [if_neg hw, if_neg (by omega)]
  set d2 := storeBytes d1 (M+1) (d1.take 5) with hd2def
  have htk5 : (d1.take 5).length = 5 := by
    rw [List.length_take, hd1len]
    omega
  have hd2len : d2.length = buf.length := by
    rw [hd2def, storeBytes_length (by rw [htk5, hd1len]; omega), hd1len]
  have htk5get : ∀ k, k < 5 → (d1.take 5)[k]? = buf[k]? := by
    intro k hk
    rw [List.getElem?_take, if_pos hk, hd1get, if_neg (by omega)]
  have hd2get : ∀ j, d2[j]? =
      if M + 1 ≤ j ∧ j < M + 6 then buf[j - (M+1)]?
      else if M + 6 ≤ j ∧ j < buf.length then buf[j - 5]? else buf[j]? := by
    intro j
    rw [hd2def, storeBytes_getElem? (by rw [htk5, hd1len]; omega)]
    by_cases hw : M + 1 ≤ j ∧ j < M + 1 + (d1.take 5).length
    · rw [if_pos hw, htk5get _ (by omega), if_pos (by omega)]
    · rw [if_neg hw, hd1get, if_neg (show ¬(M + 1 ≤ j ∧ j < M + 6) by omega)]
  have hb3 : d2[3]? = buf[3]? := by
    rw [hd2get, if_neg (by omega), if_neg (by omega)]
  have hb4 : d2[4]? = buf[4]? := by
    rw [hd2get, if_neg (by omega), if_neg (by omega)]
  have hrl : readU16 d2 3 = readU16 buf 3 := by
    unfold readU16
    rw [List.getD_eq_getElem?_getD, List.getD_eq_getElem?_getD, hb3, hb4]
    rw [← List.getD_eq_getElem?_getD, ← List.getD_eq_getElem?_getD]
  rw [hrl]
  set p1 := M + 1 - 5 with hp1def
  set p2 := (((readU16 buf 3 : Int) - (p1 : Int)) % 65536).toNat with hp2def
  set d3 := storeBytes d2 3 [p1 / 256 % 256, p1 % 256] with hd3def
  have hsrc2 : ([p1 / 256 % 256, p1 % 256] : List Nat).length = 2 := rfl
  have hd3len : d3.length = buf.length := by
    rw [hd3def, storeBytes_length (by rw [hsrc2, hd2len]; omega), hd2len]
  have hd3get : ∀ j, d3[j]? =
      if j = 3 then some (p1 / 256 % 256)
      else if j = 4 then some (p1 % 256)
      else d2[j]? := by
    intro j
    rw [hd3def, storeBytes_getElem? (by rw [hsrc2, hd2len]; omega), hsrc2]
    by_cases h3 : j = 3
    · subst h3
      rw [if_pos (by omega), if_pos rfl]
      rfl
    · by_cases h4 : j = 4
      · subst h4
        rw [if_pos (by omega), if_neg h3, if_pos rfl]
        rfl
      · rw [if_neg (by omega), if_neg h3, if_neg h4]
  have hsrc3 : ([p2 / 256 % 256, p2 % 256] : List Nat).length = 2 := rfl
  rw [storeBytes_getElem? (by rw [hsrc3, hd3len]; omega), hsrc3]
  by_cases hA : M + 1 + 3 ≤ j ∧ j < M + 1 + 3 + 2
  · rw [if_pos hA]
    by_cases hA4 : j = M + 4
    · subst hA4
      have : M + 4 - (M + 1 + 3) = 0 := by omega
      rw [this]
      repeat rw [if_neg (by omega)]
      rw [if_pos rfl]
      rfl
    · have hA5 : j = M + 5 := by omega
      subst hA5
      have : M + 5 - (M + 1 + 3) = 1 := by omega
      rw [this]
      repeat rw [if_neg (by omega)]
      rw [if_pos rfl]
      rfl
  · rw [if_neg hA, hd3get]
    by_cases h3 : j = 3
    · subst h3
      rw [if_pos rfl, if_neg (by omega), if_pos rfl]
    · rw [if_neg h3]
      by_cases h4 : j = 4
      · subst h4
        rw [if_pos rfl, if_neg (by omega), if_neg (by omega), if_pos rfl]
      · rw [if_neg h4, hd2get]
        by_cases hw1 : M + 1 ≤ j ∧ j < M + 6
        · rw [if_pos (by omega)]
          rw [if_neg (by omega), if_neg h3, if_neg h4, if_neg (by omega), if_pos (by omega)]
        · rw [if_neg (by omega)]
          by_cases hw2 : M + 6 ≤ j ∧ j < buf.length
          · rw [if_pos hw2]
            rw [if_neg (by omega), if_neg h3, if_neg h4]
            repeat rw [if_neg (by omega)]
            rw [if_pos (by omega)]
          · rw [if_neg hw2]
            by_cases hj : j < 3
            · rw [if_pos hj]
            · rw [if_neg hj, if_neg h3, if_neg h4]
              by_cases hjm : j < M + 1
              · rw [if_pos hjm]
              · rw [if_neg hjm]
                repeat rw [if_neg (by omega)]
                exact List.getElem?_eq_none (by omega)

theorem modify_tls_header_length (buf : List Nat) (M : Nat) (h5 : 5 ≤ M)
    (hlen : M + 6 ≤ buf.length) :
    (modify_tls_header buf M).length = buf.length := by
  simp only [modify_tls_header, storeBytes, List.length_append, List.length_take,
    List.length_drop, List.length_cons, List.length_nil]
  omega

theorem getD_lt_of_bytes {l : List Nat} {i : Nat} (hbytes : ∀ b ∈ l, b < 256)
    (h : i < l.length) : l.getD i 0 < 256 := by
  have he : l.getD i 0 = l[i] := by
    rw [List.getD_eq_getElem?_getD, List.getElem?_eq_getElem h]
    rfl
  rw [he]
  exact hbytes _ (List.getElem_mem h)

/-- Behaviour of the Record Splitter on a buffer that the parser accepted,
with the 5 reserved trailing bytes `pad` appended: length preserved, first
record header type and version untouched, 5-byte header duplicated at the
split (its first 3 bytes), the two big-endian length fields, and the
round-trip of the payload bytes. -/
theorem modify_after_parse {data pad h : List Nat} {L M : Nat}
    (hpad : pad.length = 5) (hbytes : ∀ b ∈ data, b < 256)
    (hp : parse_tls_header false data = ParseResult.ok h L M) :
    (modify_tls_header (data ++ pad) M).length = (data ++ pad).length ∧
    (modify_tls_header (data ++ pad) M).take 3 = (data ++ pad).take 3 ∧
    ((modify_tls_header (data ++ pad) M).drop (M + 1)).take 3 = (data ++ pad).take 3 ∧
    readU16 (modify_tls_header (data ++ pad) M) 3 = (M + 1) - 5 ∧
    readU16 (modify_tls_header (data ++ pad) M) (M + 1 + 3)
      = declaredLen data - ((M + 1) - 5) ∧
    ((modify_tls_header (data ++ pad) M).drop 5).take ((M + 1) - 5) ++
      ((modify_tls_header (data ++ pad) M).drop (M + 1 + 5)).take
        (declaredLen data - ((M + 1) - 5))
      = (data.drop 5).take (declaredLen data) := by
  obtain ⟨hfull, h58, hML, hMlt, hLb, hh⟩ := parse_tls_header_ok hp
  have hdlen : 5 ≤ data.length := by omega
  have hdecl : declaredLen data < 65536 := by
    have b3 := getD_lt_of_bytes hbytes (show 3 < data.length by omega)
    have b4 := getD_lt_of_bytes hbytes (show 3 + 1 < data.length by omega)
    unfold declaredLen readU16
    omega
  have hbuflen : (data ++ pad).length = data.length + 5 := by
    rw [List.length_append, hpad]
  have h5 : 5 ≤ M := by omega
  have hlen6 : M + 6 ≤ (data ++ pad).length := by omega
  have hrl : readU16 (data ++ pad) 3 = declaredLen data := by
    unfold readU16 declaredLen readU16
    rw [List.getD_eq_getElem?_getD, List.getD_eq_getElem?_getD,
      List.getElem?_append_left (by omega), List.getElem?_append_left (by omega),
      ← List.getD_eq_getElem?_getD, ← List.getD_eq_getElem?_getD]
  have hp2 : ((((readU16 (data ++ pad) 3 : Int) - ((M + 1 - 5 : Nat) : Int)) % 65536).toNat)
      = declaredLen data - (M + 1 - 5) := by
    rw [hrl]
    omega
  have hg := modify_tls_header_getElem? (data ++ pad) M h5 hlen6
  have houtlen : (modify_tls_header (data ++ pad) M).length = (data ++ pad).length :=
    modify_tls_header_length _ _ h5 hlen6
  refine ⟨houtlen, ?_, ?_, ?_, ?_, ?_⟩
  · -- first 3 bytes unchanged
    apply List.ext_getElem?
    intro n
    rw [List.getElem?_take, List.getElem?_take]
    split
    case isTrue hn => rw [hg, if_pos (by omega)]
    case isFalse => rfl
  · -- bytes [M+1, M+4) equal the original first 3 header bytes
    apply List.ext_getElem?
    intro n
    rw [List.getElem?_take, List.getElem?_take]
    split
    case isTrue hn =>
      rw [List.getElem?_drop, hg]
      repeat rw [if_neg (by omega)]
      rw [if_pos (by omega)]
      congr 1
      omega
    case isFalse => rfl
  · -- first record length field
    unfold readU16
    rw [List.getD_eq_getElem?_getD, List.getD_eq_getElem?_getD, hg 3, hg 4]
    rw [if_neg (by omega), if_pos rfl, if_neg (by omega), if_neg (by omega), if_pos rfl]
    simp only [Option.getD_some]
    omega
  · -- second record length field
    unfold readU16
    rw [List.getD_eq_getElem?_getD, List.getD_eq_getElem?_getD, hg (M + 1 + 3), hg (M + 1 + 3 + 1)]
    repeat rw [if_neg (by omega)]
    rw [if_pos (by omega)]
    repeat rw [if_neg (by omega)]
    rw [if_pos (by omega)]
    simp only [Option.getD_some]
    rw [hp2]
    have hple : declaredLen data - (M + 1 - 5) < 65536 := by omega
    omega
  · -- payload round-trip
    apply List.ext_getElem?
    intro n
    have hA : (((modify_tls_header (data ++ pad) M).drop 5).take ((M + 1) - 5)).length
        = (M + 1) - 5 := length_slice (by omega)
    rw [List.getElem?_append]
    rw [hA]
    by_cases hn1 : n < M + 1 - 5
    · rw [if_pos hn1]
      rw [List.getElem?_take, if_pos hn1, List.getElem?_drop, hg]
      repeat rw [if_neg (by omega)]
      rw [if_pos (by omega)]
      rw [List.getElem?_take, if_pos (by omega), List.getElem?_drop,
        List.getElem?_append_left (by omega)]
    · rw [if_neg hn1]
      rw [List.getElem?_take, List.getElem?_take]
      by_cases hn2 : n < declaredLen data
      · rw [if_pos (by omega), if_pos (by omega)]
        rw [List.getElem?_drop, List.getElem?_drop, hg]
        repeat rw [if_neg (by omega)]
        rw [if_pos (by omega)]
        rw [List.getElem?_append_left (by omega)]
        congr 1
        omega
      · rw [if_neg (by omega), if_neg (by omega)]

/-- Claim C2 (amended): on every successful parse whose name bytes contain no
null byte, the returned length is the entry's declared 16-bit name length,
the hostname buffer has L+1 bytes, and it is exactly the L name bytes that
start at the returned modify position, followed by a terminating null.
(Without the no-null hypothesis the claim fails: `strncpy` stops copying at
an interior null, see the counterexample.) -/
theorem hostname_extraction_correct {data h : List Nat} {L M : Nat}
    (hp : parse_tls_header false data = ParseResult.ok h L M)
    (hnz : ∀ b ∈ (data.drop M).take L, b ≠ 0) :
    L = data.getD (M - 2) 0 * 256 + data.getD (M - 1) 0 ∧
    h.length = L + 1 ∧
    h = (data.drop M).take L ++ [0] := by
  obtain ⟨hfull, h58, hML, hMlt, hLb, hh⟩ := parse_tls_header_ok hp
  have hsl : ((data.drop M).take L).length = L := length_slice (by omega)
  have hcp : strncpyBytes ((data.drop M).take L) L = (data.drop M).take L :=
    strncpyBytes_eq_self L _ hsl hnz
  refine ⟨hLb, ?_, ?_⟩
  · rw [hh, hcp, List.length_append, hsl]
    rfl
  · rw [hh, hcp]

/-- Witness for the amended claim C2 at the example.com ClientHello. -/
theorem hostname_extraction_correct_witness :
    (11 : Nat) = exampleClientHello.getD (61 - 2) 0 * 256 + exampleClientHello.getD (61 - 1) 0 ∧
    ([101, 120, 97, 109, 112, 108, 101, 46, 99, 111, 109, 0] : List Nat).length = 11 + 1 ∧
    ([101, 120, 97, 109, 112, 108, 101, 46, 99, 111, 109, 0] : List Nat)
      = (exampleClientHello.drop 61).take 11 ++ [0] :=
  @hostname_extraction_correct exampleClientHello
    [101, 120, 97, 109, 112, 108, 101, 46, 99, 111, 109, 0] 11 61
    (by decide) (by decide)

/-- Counterexample to claim C2 as stated: on a ClientHello whose 3-byte
host_name is `[65, 0, 66]`, the parse succeeds with length 3 and modify
position 61, but the stored hostname buffer is `[65, 0, 0, 0]`, not the 3
name bytes `[65, 0, 66]` followed by a null: `strncpy` stopped at the
interior null byte and zero-filled the rest. -/
theorem hostname_copy_counterexample :
    parse_tls_header false nullByteClientHello = ParseResult.ok [65, 0, 0, 0] 3 61 ∧
    ¬ ([65, 0, 0, 0] : List Nat) = (nullByteClientHello.drop 61).take 3 ++ [0] := by
  decide

/-- Claim C10: on every successful parse the hostname bytes lie inside the
validated record: `5 ≤ M` and `M + L` is at most both the supplied buffer
length and `5 +` the declared record length. -/
theorem hostname_within_validated_record {data h : List Nat} {L M : Nat}
    (hp : parse_tls_header false data = ParseResult.ok h L M) :
    5 ≤ M ∧ M + L ≤ min data.length (5 + declaredLen data) := by
  obtain ⟨hfull, h58, hML, hMlt, _, _⟩ := parse_tls_header_ok hp
  exact ⟨by omega, by omega⟩

/-- Witness for claim C10 at the example.com ClientHello. -/
theorem hostname_within_validated_record_witness :
    5 ≤ 61 ∧ 61 + 11 ≤ min exampleClientHello.length (5 + declaredLen exampleClientHello) :=
  @hostname_within_validated_record exampleClientHello
    [101, 120, 97, 109, 112, 108, 101, 46, 99, 111, 109, 0] 11 61
    (by decide)

/-- Claim C4: on every successful parse (byte-valued buffer, 5 reserved pad
bytes), the Record Splitter at `split = M + 1` keeps the total length, keeps
the first record's type/version bytes, duplicates the original header's
type/version at the split, and writes `split - 5` and
`declared - (split - 5)` into the two big-endian length fields. -/
theorem record_splitter_fields {data pad h : List Nat} {L M : Nat}
    (hpad : pad.length = 5) (hbytes : ∀ b ∈ data, b < 256)
    (hp : parse_tls_header false data = ParseResult.ok h L M) :
    (modify_tls_header (data ++ pad) M).length = (data ++ pad).length ∧
    (modify_tls_header (data ++ pad) M).take 3 = (data ++ pad).take 3 ∧
    ((modify_tls_header (data ++ pad) M).drop (M + 1)).take 3 = (data ++ pad).take 3 ∧
    readU16 (modify_tls_header (data ++ pad) M) 3 = (M + 1) - 5 ∧
    readU16 (modify_tls_header (data ++ pad) M) ((M + 1) + 3)
      = declaredLen data - ((M + 1) - 5) := by
  obtain ⟨a, b, c, d, e, _⟩ := modify_after_parse hpad hbytes hp
  exact ⟨a, b, c, d, e⟩

/-- Witness for claim C4 at the example.com ClientHello. -/
theorem record_splitter_fields_witness :
    (modify_tls_header (exampleClientHello ++ [0, 0, 0, 0, 0]) 61).length
      = (exampleClientHello ++ [0, 0, 0, 0, 0]).length ∧
    (modify_tls_header (exampleClientHello ++ [0, 0, 0, 0, 0]) 61).take 3
      = (exampleClientHello ++ [0, 0, 0, 0, 0]).take 3 ∧
    ((modify_tls_header (exampleClientHello ++ [0, 0, 0, 0, 0]) 61).drop (61 + 1)).take 3
      = (exampleClientHello ++ [0, 0, 0, 0, 0]).take 3 ∧
    readU16 (modify_tls_header (exampleClientHello ++ [0, 0, 0, 0, 0]) 61) 3 = (61 + 1) - 5 ∧
    readU16 (modify_tls_header (exampleClientHello ++ [0, 0, 0, 0, 0]) 61) ((61 + 1) + 3)
      = declaredLen exampleClientHello - ((61 + 1) - 5) :=
  @record_splitter_fields exampleClientHello [0, 0, 0, 0, 0]
    [101, 120, 97, 109, 112, 108, 101, 46, 99, 111, 109, 0] 11 61
    (by decide) (by decide) (by decide)

/-- Claim C3: the splitter round-trips.  On every successful parse,
concatenating the two records' payload bytes of the split buffer (skipping
the duplicated 5-byte header) reproduces the original record's payload, and
the two new 16-bit length fields plus 5 sum to the original declared record
length plus 5. -/
theorem record_splitter_roundtrip {data pad h : List Nat} {L M : Nat}
    (hpad : pad.length = 5) (hbytes : ∀ b ∈ data, b < 256)
    (hp : parse_tls_header false data = ParseResult.ok h L M) :
    ((modify_tls_header (data ++ pad) M).drop 5).take ((M + 1) - 5) ++
      ((modify_tls_header (data ++ pad) M).drop ((M + 1) + 5)).take
        (declaredLen data - ((M + 1) - 5))
      = (data.drop 5).take (declaredLen data) ∧
    readU16 (modify_tls_header (data ++ pad) M) 3
      + readU16 (modify_tls_header (data ++ pad) M) ((M + 1) + 3) + 5
      = declaredLen data + 5 := by
  obtain ⟨_, _, _, hf1, hf2, hpay⟩ := modify_after_parse hpad hbytes hp
  obtain ⟨_, _, _, hMlt, _, _⟩ := parse_tls_header_ok hp
  refine ⟨hpay, ?_⟩
  rw [hf1, hf2]
  omega

/-- Witness for claim C3 at the example.com ClientHello. -/
theorem record_splitter_roundtrip_witness :
    ((modify_tls_header (exampleClientHello ++ [0, 0, 0, 0, 0]) 61).drop 5).take ((61 + 1) - 5) ++
      ((modify_tls_header (exampleClientHello ++ [0, 0, 0, 0, 0]) 61).drop ((61 + 1) + 5)).take
        (declaredLen exampleClientHello - ((61 + 1) - 5))
      = (exampleClientHello.drop 5).take (declaredLen exampleClientHello) ∧
    readU16 (modify_tls_header (exampleClientHello ++ [0, 0, 0, 0, 0]) 61) 3
      + readU16 (modify_tls_header (exampleClientHello ++ [0, 0, 0, 0, 0]) 61) ((61 + 1) + 3) + 5
      = declaredLen exampleClientHello + 5 :=
  @record_splitter_roundtrip exampleClientHello [0, 0, 0, 0, 0]
    [101, 120, 97, 109, 112, 108, 101, 46, 99, 111, 109, 0] 11 61
    (by decide) (by decide) (by decide)

/-- Claim C7: a buffer of length at least 5 matching the SSLv2 ClientHello
pattern (high bit of byte 0 set and byte 2 equal to 1) is answered with
NoHostname. -/
theorem sslv2_hello_noHostname (l : List Nat) (h5 : 5 ≤ l.length)
    (h0 : l.getD 0 0 &&& 128 ≠ 0) (h2 : l.getD 2 0 = 1) :
    parse_tls_header false l = ParseResult.err ParseErr.noHostname := by
  unfold parse_tls_header
  rw [if_neg (by simp), if_neg (by omega)]
  split
  case h_1 b0 b2 e0 e2 =>
    obtain ⟨_, v0⟩ := byteAt_some e0
    obtain ⟨_, v2⟩ := byteAt_some e2
    rw [if_pos ⟨v0 ▸ h0, v2 ▸ h2⟩]
  case h_2 e0 =>
    rw [byteAt_eq_some (by omega)] at e0
    cases e0
  case h_3 e0 e2 =>
    rw [byteAt_eq_some (by omega)] at e0
    cases e0

/-- Witness for claim C7. -/
theorem sslv2_hello_noHostname_witness :
    parse_tls_header false [128, 0, 1, 0, 0] = ParseResult.err ParseErr.noHostname :=
  sslv2_hello_noHostname [128, 0, 1, 0, 0] (by decide) (by decide) (by decide)

/-- Claim C9: a buffer of length at least 5 whose content type is 0x16 but
whose record version major byte is below 3 is answered with NoHostname (the
SSL 2.x/1.x record-version rejection), independently of the record-length
check. -/
theorem low_record_version_noHostname (l : List Nat) (h5 : 5 ≤ l.length)
    (h0 : l.getD 0 0 = 22) (h1 : l.getD 1 0 < 3) :
    parse_tls_header false l = ParseResult.err ParseErr.noHostname := by
  unfold parse_tls_header
  rw [if_neg (by simp), if_neg (by omega)]
  split
  case h_1 b0 b2 e0 e2 =>
    obtain ⟨_, v0⟩ := byteAt_some e0
    have hb0 : b0 = 22 := by rw [v0] at h0; exact h0
    subst hb0
    rw [if_neg (fun hc => hc.1 (by decide)), if_neg (fun hc => hc rfl)]
    split
    case h_1 vmaj e1 =>
      obtain ⟨_, v1⟩ := byteAt_some e1
      rw [if_pos (by omega)]
    case h_2 e1 =>
      rw [byteAt_eq_some (by omega)] at e1
      cases e1
  case h_2 e0 =>
    rw [byteAt_eq_some (by omega)] at e0
    cases e0
  case h_3 e0 e2 =>
    rw [byteAt_eq_some (by omega)] at e0
    cases e0

/-- Witness for claim C9. -/
theorem low_record_version_noHostname_witness :
    parse_tls_header false [22, 2, 0, 0, 0] = ParseResult.err ParseErr.noHostname :=
  low_record_version_noHostname [22, 2, 0, 0, 0] (by decide) (by decide) (by decide)

/-- Claim C5 (amended): a buffer shorter than 5 bytes is Incomplete, and a
buffer of length at least 5 that passes the checks preceding the length
check (content type 0x16 — which also defeats the SSLv2 pattern — and
version major at least 3) whose declared record length plus 5 exceeds the
buffer length is Incomplete.  (As originally stated, with no condition on
the leading bytes, the claim fails: the SSLv2/content-type/version checks
run first, see the counterexample.) -/
theorem incomplete_conditions (l : List Nat) :
    (l.length < 5 → parse_tls_header false l = ParseResult.err ParseErr.incomplete) ∧
    (5 ≤ l.length → l.getD 0 0 = 22 → 3 ≤ l.getD 1 0 →
      l.length < 5 + declaredLen l →
      parse_tls_header false l = ParseResult.err ParseErr.incomplete) := by
  constructor
  · intro hs
    unfold parse_tls_header
    rw [if_neg (by simp), if_pos hs]
  · intro h5 h0 h1 hlen
    unfold parse_tls_header
    rw [if_neg (by simp), if_neg (by omega)]
    split
    case h_1 b0 b2 e0 e2 =>
      obtain ⟨_, v0⟩ := byteAt_some e0
      have hb0 : b0 = 22 := by rw [v0] at h0; exact h0
      subst hb0
      rw [if_neg (fun hc => hc.1 (by decide)), if_neg (fun hc => hc rfl)]
      split
      case h_1 vmaj e1 =>
        obtain ⟨_, v1⟩ := byteAt_some e1
        rw [if_neg (by omega)]
        split
        case h_1 b3 b4 e3 e4 =>
          obtain ⟨_, v3⟩ := byteAt_some e3
          obtain ⟨_, v4⟩ := byteAt_some e4
          have v4' : l.getD (3 + 1) 0 = b4 := v4
          have hd : declaredLen l = b3 * 256 + b4 := by
            unfold declaredLen readU16
            rw [v3, v4']
          rw [if_pos (by omega)]
        case h_2 e3 =>
          rw [byteAt_eq_some (by omega)] at e3
          cases e3
        case h_3 e3 e4 =>
          rw [byteAt_eq_some (by omega)] at e3
          cases e3
      case h_2 e1 =>
        rw [byteAt_eq_some (by omega)] at e1
        cases e1
    case h_2 e0 =>
      rw [byteAt_eq_some (by omega)] at e0
      cases e0
    case h_3 e0 e2 =>
      rw [byteAt_eq_some (by omega)] at e0
      cases e0

/-- Witness for the amended claim C5: a 2-byte buffer, and a 5-byte buffer
declaring a 10-byte record. -/
theorem incomplete_conditions_witness :
    parse_tls_header false [22, 3] = ParseResult.err ParseErr.incomplete ∧
    parse_tls_header false [22, 3, 1, 0, 10] = ParseResult.err ParseErr.incomplete :=
  ⟨(incomplete_conditions [22, 3]).1 (by decide),
   (incomplete_conditions [22, 3, 1, 0, 10]).2 (by decide) (by decide) (by decide) (by decide)⟩

/-- Counterexample to claim C5 as stated: the buffer `[21, 3, 1, 0, 10]`
declares a record longer than the buffer (10 + 5 > 5), yet the parser
answers Malformed (content type 0x15), not Incomplete. -/
theorem incomplete_claim_counterexample :
    ([21, 3, 1, 0, 10] : List Nat).length < 5 + declaredLen [21, 3, 1, 0, 10] ∧
    parse_tls_header false [21, 3, 1, 0, 10] = ParseResult.err ParseErr.malformed ∧
    parse_tls_header false [21, 3, 1, 0, 10] ≠ ParseResult.err ParseErr.incomplete := by
  decide

/-- Claim C6 (amended): a buffer of length at least 5 whose content-type
byte is not 0x16 and which does not match the SSLv2 ClientHello pattern is
answered with Malformed.  (As originally stated the claim fails: the SSLv2
check runs first and answers NoHostname, see the counterexample.) -/
theorem wrong_content_type_malformed (l : List Nat) (h5 : 5 ≤ l.length)
    (h0 : l.getD 0 0 ≠ 22)
    (hssl2 : ¬(l.getD 0 0 &&& 128 ≠ 0 ∧ l.getD 2 0 = 1)) :
    parse_tls_header false l = ParseResult.err ParseErr.malformed := by
  unfold parse_tls_header
  rw [if_neg (by simp), if_neg (by omega)]
  split
  case h_1 b0 b2 e0 e2 =>
    obtain ⟨_, v0⟩ := byteAt_some e0
    obtain ⟨_, v2⟩ := byteAt_some e2
    rw [if_neg (by rw [← v0, ← v2]; exact hssl2), if_pos (by rw [← v0]; exact h0)]
  case h_2 e0 =>
    rw [byteAt_eq_some (by omega)] at e0
    cases e0
  case h_3 e0 e2 =>
    rw [byteAt_eq_some (by omega)] at e0
    cases e0

/-- Witness for the amended claim C6. -/
theorem wrong_content_type_malformed_witness :
    parse_tls_header false [0, 0, 0, 0, 0] = ParseResult.err ParseErr.malformed :=
  wrong_content_type_malformed [0, 0, 0, 0, 0] (by decide) (by decide) (by decide)

/-- Counterexample to claim C6 as stated: the buffer `[128, 0, 1, 0, 0]` has
content-type byte 0x80, not 0x16, yet the parser answers NoHostname (SSLv2
pattern), not Malformed. -/
theorem content_type_claim_counterexample :
    5 ≤ ([128, 0, 1, 0, 0] : List Nat).length ∧
    ([128, 0, 1, 0, 0] : List Nat).getD 0 0 ≠ 22 ∧
    parse_tls_header false [128, 0, 1, 0, 0] ≠ ParseResult.err ParseErr.malformed ∧
    parse_tls_header false [128, 0, 1, 0, 0] = ParseResult.err ParseErr.noHostname := by
  decide

/-! Reads at computed offsets of a structured ClientHello. -/

theorem getElem?_at_append (p : List Nat) (x : Nat) (q : List Nat) {n : Nat}
    (hn : n = p.length) : (p ++ x :: q)[n]? = some x := by
  subst hn
  rw [List.getElem?_append_right (le_refl _), Nat.sub_self]
  simp

theorem getElem?_at_append2 (p : List Nat) (x y : Nat) (q : List Nat) {n : Nat}
    (hn : n = p.length + 1) : (p ++ x :: y :: q)[n]? = some y := by
  subst hn
  rw [List.getElem?_append_right (by omega)]
  have hi : p.length + 1 - p.length = 1 := by omega
  rw [hi]
  simp

theorem mkClientHello_length (rand37 sid cs cm ext : List Nat) (h37 : rand37.length = 37) :
    (mkClientHello 3 0 rand37 sid cs cm ext).length
      = 47 + sid.length + cs.length + cm.length + ext.length := by
  simp only [mkClientHello, mkClientHelloBody, List.length_append, List.length_cons,
    List.length_nil]
  omega

theorem mkClientHelloBody_length (rand37 sid cs cm ext : List Nat) (h37 : rand37.length = 37) :
    (mkClientHelloBody rand37 sid cs cm ext).length
      = 42 + sid.length + cs.length + cm.length + ext.length := by
  simp only [mkClientHelloBody, List.length_append, List.length_cons, List.length_nil]
  omega

theorem mkClientHello_getD_43 (rand37 sid cs cm ext : List Nat) (h37 : rand37.length = 37) :
    (mkClientHello 3 0 rand37 sid cs cm ext).getD 43 0 = sid.length := by
  have hshape : mkClientHello 3 0 rand37 sid cs cm ext
      = (22 :: 3 :: 0 :: (mkClientHelloBody rand37 sid cs cm ext).length / 256
          :: (mkClientHelloBody rand37 sid cs cm ext).length % 256 :: 1 :: rand37)
        ++ sid.length :: (sid ++ (cs.length / 256 :: cs.length % 256
            :: (cs ++ (cm.length :: (cm ++ ext))))) := by
    simp [mkClientHello, mkClientHelloBody]
  rw [List.getD_eq_getElem?_getD, hshape,
    getElem?_at_append _ _ _ (by simp [h37])]
  rfl

theorem mkClientHello_getD_cs (rand37 sid cs cm ext : List Nat) (h37 : rand37.length = 37) :
    (mkClientHello 3 0 rand37 sid cs cm ext).getD (44 + sid.length) 0 = cs.length / 256 ∧
    (mkClientHello 3 0 rand37 sid cs cm ext).getD (44 + sid.length + 1) 0 = cs.length % 256 := by
  have hshape : mkClientHello 3 0 rand37 sid cs cm ext
      = (22 :: 3 :: 0 :: (mkClientHelloBody rand37 sid cs cm ext).length / 256
          :: (mkClientHelloBody rand37 sid cs cm ext).length % 256 :: 1
          :: (rand37 ++ sid.length :: sid))
        ++ cs.length / 256 :: cs.length % 256 :: (cs ++ (cm.length :: (cm ++ ext))) := by
    simp [mkClientHello, mkClientHelloBody]
  constructor
  · rw [List.getD_eq_getElem?_getD, hshape,
      getElem?_at_append _ _ _ (by simp [h37]; omega)]
    rfl
  · rw [List.getD_eq_getElem?_getD, hshape,
      getElem?_at_append2 _ _ _ _ (by simp [h37]; omega)]
    rfl

theorem mkClientHello_getD_cm (rand37 sid cs cm ext : List Nat) (h37 : rand37.length = 37) :
    (mkClientHello 3 0 rand37 sid cs cm ext).getD (46 + sid.length + cs.length) 0
      = cm.length := by
  have hshape : mkClientHello 3 0 rand37 sid cs cm ext
      = (22 :: 3 :: 0 :: (mkClientHelloBody rand37 sid cs cm ext).length / 256
          :: (mkClientHelloBody rand37 sid cs cm ext).length % 256 :: 1
          :: (rand37 ++ sid.length :: (sid ++ cs.length / 256 :: cs.length % 256 :: cs)))
        ++ cm.length :: (cm ++ ext) := by
    simp [mkClientHello, mkClientHelloBody]
  rw [List.getD_eq_getElem?_getD, hshape,
    getElem?_at_append _ _ _ (by simp [h37]; omega)]
  rfl

theorem mkClientHello_getD_ext2 (rand37 sid cs cm : List Nat) (h37 : rand37.length = 37) :
    (mkClientHello 3 0 rand37 sid cs cm [0, 0]).getD
        (47 + sid.length + cs.length + cm.length) 0 = 0 ∧
    (mkClientHello 3 0 rand37 sid cs cm [0, 0]).getD
        (47 + sid.length + cs.length + cm.length + 1) 0 = 0 := by
  have hshape : mkClientHello 3 0 rand37 sid cs cm [0, 0]
      = (22 :: 3 :: 0 :: (mkClientHelloBody rand37 sid cs cm [0, 0]).length / 256
          :: (mkClientHelloBody rand37 sid cs cm [0, 0]).length % 256 :: 1
          :: (rand37 ++ sid.length :: (sid ++ cs.length / 256 :: cs.length % 256
            :: (cs ++ cm.length :: cm))))
        ++ 0 :: 0 :: ([] : List Nat) := by
    simp [mkClientHello, mkClientHelloBody]
  constructor
  · rw [List.getD_eq_getElem?_getD, hshape,
      getElem?_at_append _ _ _ (by simp [h37]; omega)]
    rfl
  · rw [List.getD_eq_getElem?_getD, hshape,
      getElem?_at_append2 _ _ _ _ (by simp [h37]; omega)]
    rfl

/-- The header phase of `parse_tls_header` on any `mkClientHello 3 0 ...`
reaches the extensions step with the working length equal to the whole
buffer and the cursor just past the compression-methods list. -/
theorem mkClientHello_parse_eq_exts (rand37 sid cs cm ext : List Nat)
    (h37 : rand37.length = 37) :
    parse_tls_header false (mkClientHello 3 0 rand37 sid cs cm ext)
      = parse_tls_header_exts (mkClientHello 3 0 rand37 sid cs cm ext)
          (47 + sid.length + cs.length + cm.length + ext.length) 3 0
          (47 + sid.length + cs.length + cm.length) := by
  have hdlen := mkClientHello_length rand37 sid cs cm ext h37
  have hblen := mkClientHelloBody_length rand37 sid cs cm ext h37
  have g0 : (mkClientHello 3 0 rand37 sid cs cm ext).getD 0 0 = 22 := rfl
  have g1 : (mkClientHello 3 0 rand37 sid cs cm ext).getD 1 0 = 3 := rfl
  have g2 : (mkClientHello 3 0 rand37 sid cs cm ext).getD 2 0 = 0 := rfl
  have g3 : (mkClientHello 3 0 rand37 sid cs cm ext).getD 3 0
      = (mkClientHelloBody rand37 sid cs cm ext).length / 256 := rfl
  have g4 : (mkClientHello 3 0 rand37 sid cs cm ext).getD 4 0
      = (mkClientHelloBody rand37 sid cs cm ext).length % 256 := rfl
  have g5 : (mkClientHello 3 0 rand37 sid cs cm ext).getD 5 0 = 1 := rfl
  have g43 := mkClientHello_getD_43 rand37 sid cs cm ext h37
  obtain ⟨gcs1, gcs2⟩ := mkClientHello_getD_cs rand37 sid cs cm ext h37
  have gcm := mkClientHello_getD_cm rand37 sid cs cm ext h37
  unfold parse_tls_header
  rw [if_neg (by simp), if_neg (by omega)]
  split
  case h_1 b0 b2 e0 e2 =>
    obtain ⟨_, v0⟩ := byteAt_some e0
    obtain ⟨_, v2⟩ := byteAt_some e2
    have hb0 : b0 = 22 := by rw [v0] at g0; exact g0
    have hb2 : b2 = 0 := by rw [v2] at g2; exact g2
    subst hb0
    subst hb2
    rw [if_neg (fun hc => hc.1 (by decide)), if_neg (fun hc => hc rfl)]
    split
    case h_1 vmaj e1 =>
      obtain ⟨_, v1⟩ := byteAt_some e1
      have hv : vmaj = 3 := by rw [v1] at g1; exact g1
      subst hv
      rw [if_neg (by omega)]
      split
      case h_1 b3 b4 e3 e4 =>
        obtain ⟨_, v3⟩ := byteAt_some e3
        obtain ⟨_, v4⟩ := byteAt_some e4
        have hb3 : b3 = (mkClientHelloBody rand37 sid cs cm ext).length / 256 := by
          rw [v3] at g3; exact g3
        have hb4 : b4 = (mkClientHelloBody rand37 sid cs cm ext).length % 256 := by
          rw [v4] at g4; exact g4
        subst hb3
        subst hb4
        have hmin : min (mkClientHello 3 0 rand37 sid cs cm ext).length
            ((mkClientHelloBody rand37 sid cs cm ext).length / 256 * 256
              + (mkClientHelloBody rand37 sid cs cm ext).length % 256 + 5)
            = 47 + sid.length + cs.length + cm.length + ext.length := by omega
        rw [if_neg (by omega), hmin]
        unfold parse_tls_header_hs
        rw [if_neg (by omega)]
        split
        case h_1 ht e5 =>
          obtain ⟨_, v5⟩ := byteAt_some e5
          have hht : ht = 1 := by rw [v5] at g5; exact g5
          subst hht
          rw [if_neg (fun hc => hc rfl)]
          unfold parse_tls_header_sid
          rw [if_neg (by omega)]
          split
          case h_1 sidLen e43 =>
            obtain ⟨_, v43⟩ := byteAt_some e43
            have hsid : sidLen = sid.length := by rw [v43] at g43; exact g43
            subst hsid
            unfold parse_tls_header_cs
            rw [if_neg (by omega)]
            split
            case h_1 csHi csLo ec1 ec2 =>
              obtain ⟨_, vc1⟩ := byteAt_some ec1
              obtain ⟨_, vc2⟩ := byteAt_some ec2
              have gcs1' : (mkClientHello 3 0 rand37 sid cs cm ext).getD
                  (43 + 1 + sid.length) 0 = cs.length / 256 := by
                rw [show 43 + 1 + sid.length = 44 + sid.length by omega]
                exact gcs1
              have gcs2' : (mkClientHello 3 0 rand37 sid cs cm ext).getD
                  (43 + 1 + sid.length + 1) 0 = cs.length % 256 := by
                rw [show 43 + 1 + sid.length + 1 = 44 + sid.length + 1 by omega]
                exact gcs2
              have hcs1 : csHi = cs.length / 256 := by rw [vc1] at gcs1'; exact gcs1'
              have hcs2 : csLo = cs.length % 256 := by rw [vc2] at gcs2'; exact gcs2'
              subst hcs1
              subst hcs2
              rw [show 43 + 1 + sid.length + 2 + (cs.length / 256 * 256 + cs.length % 256)
                  = 46 + sid.length + cs.length by omega]
              unfold parse_tls_header_comp
              rw [if_neg (by omega)]
              split
              case h_1 cmLen ecm =>
                obtain ⟨_, vcm⟩ := byteAt_some ecm
                have hcm : cmLen = cm.length := by rw [vcm] at gcm; exact gcm
                subst hcm
                rw [show 46 + sid.length + cs.length + 1 + cm.length
                    = 47 + sid.length + cs.length + cm.length by omega]
              case h_2 ecm =>
                rw [byteAt_eq_some (by omega)] at ecm
                cases ecm
            case h_2 ec1 =>
              rw [byteAt_eq_some (by omega)] at ec1
              cases ec1
            case h_3 ec1 ec2 =>
              rw [byteAt_eq_some (by omega)] at ec1
              cases ec1
          case h_2 e43 =>
            rw [byteAt_eq_some (by omega)] at e43
            cases e43
        case h_2 e5 =>
          rw [byteAt_eq_some (by omega)] at e5
          cases e5
      case h_2 e3 =>
        rw [byteAt_eq_some (by omega)] at e3
        cases e3
      case h_3 e3 e4 =>
        rw [byteAt_eq_some (by omega)] at e3
        cases e3
    case h_2 e1 =>
      rw [byteAt_eq_some (by omega)] at e1
      cases e1
  case h_2 e0 =>
    rw [byteAt_eq_some (by omega)] at e0
    cases e0
  case h_3 e0 e2 =>
    rw [byteAt_eq_some (by omega)] at e0
    cases e0

/-- Claim C8: a well-formed SSLv3.0 ClientHello (record version 3.0, any
session id, cipher suites and compression methods, with `rand37` the 37
fixed bytes after the handshake type) is answered with NoHostname both when
no bytes remain after the compression-methods list and when an empty
extensions block (two zero bytes) follows — not Malformed. -/
theorem sslv3_no_extensions_noHostname (rand37 sid cs cm : List Nat)
    (h37 : rand37.length = 37) :
    parse_tls_header false (mkClientHello 3 0 rand37 sid cs cm [])
      = ParseResult.err ParseErr.noHostname ∧
    parse_tls_header false (mkClientHello 3 0 rand37 sid cs cm [0, 0])
      = ParseResult.err ParseErr.noHostname := by
  constructor
  · rw [mkClientHello_parse_eq_exts rand37 sid cs cm [] h37]
    unfold parse_tls_header_exts
    rw [if_pos ⟨by simp, rfl, rfl⟩]
  · rw [mkClientHello_parse_eq_exts rand37 sid cs cm [0, 0] h37]
    simp only [List.length_cons, List.length_nil]
    have hdlen : (mkClientHello 3 0 rand37 sid cs cm [0, 0]).length
        = 49 + sid.length + cs.length + cm.length := by
      rw [mkClientHello_length rand37 sid cs cm [0, 0] h37]
      simp only [List.length_cons, List.length_nil]
      omega
    obtain ⟨x1, x2⟩ := mkClientHello_getD_ext2 rand37 sid cs cm h37
    unfold parse_tls_header_exts
    rw [if_neg (by rintro ⟨hA, -, -⟩; omega)]
    rw [if_neg (by omega)]
    split
    case h_1 extHi extLo ee1 ee2 =>
      obtain ⟨_, w1⟩ := byteAt_some ee1
      obtain ⟨_, w2⟩ := byteAt_some ee2
      have hh1 : extHi = 0 := by rw [w1] at x1; exact x1
      have hh2 : extLo = 0 := by
        have x2' : (mkClientHello 3 0 rand37 sid cs cm [0, 0]).getD
            (47 + sid.length + cs.length + cm.length + 1) 0 = 0 := x2
        rw [w2] at x2'
        exact x2'
      subst hh1
      subst hh2
      rw [if_neg (by omega)]
      rw [show (0 : Nat) * 256 + 0 = 0 by rfl, List.take_zero]
      rfl
    case h_2 ee1 =>
      rw [byteAt_eq_some (by omega)] at ee1
      cases ee1
    case h_3 ee1 ee2 =>
      rw [byteAt_eq_some (by omega)] at ee1
      cases ee1

/-- Witness for claim C8, with 37 zero bytes, empty session id, one cipher
suite and one compression method. -/
theorem sslv3_no_extensions_noHostname_witness :
    parse_tls_header false
        (mkClientHello 3 0 (List.replicate 37 0) [] [19, 1] [0] [])
      = ParseResult.err ParseErr.noHostname ∧
    parse_tls_header false
        (mkClientHello 3 0 (List.replicate 37 0) [] [19, 1] [0] [0, 0])
      = ParseResult.err ParseErr.noHostname :=
  sslv3_no_extensions_noHostname (List.replicate 37 0) [] [19, 1] [0] (by decide)
